import Mathlib

/-
Verification of the retro-camera polaroid lifecycle and shared-room
synchronization engine.

The definitions below are a shallow embedding of the application code:
  * structure Photo mirrors the Photo interface of types.ts;
  * namespace RetroCam models the App component of src/App.tsx
    (takePhoto, bringToFront, handlePendingDragEnd, the ejection timer,
    the caption callback, the reset button, the film reload), together
    with the pointer-gesture guard of the Polaroid component
    (src/unnamed/part_003: handleStart returns early while the card is
    ejecting);
  * namespace RetroCam.V1 models the keep handler of the variant in
    src/unnamed/part_001 (normalized insert coordinates);
  * namespace RetroCam.V0 models the caption callback of the variant in
    src/unnamed/part_000 (which also patches the settled store);
  * namespace RetroCam.RoomSync models the room effect (fetch on join,
    live subscription with INSERT and CURSOR handlers, presence map,
    cleanup on rerun) of src/App.tsx and of the src/unnamed/part_001
    variant, as a transition system over interleavings of room changes,
    sign-outs and sign-ins with fetch completions, INSERT deliveries
    and CURSOR broadcast deliveries.

Asynchronous callbacks (timers, fetch completions, subscription events,
caption resolution) are discrete events; the single-threaded event loop
of the browser makes each handler an atomic state transition.
-/

namespace RetroCam

/-- One polaroid card, mirroring the Photo interface of src/types.ts.
Coordinates and rotation are rationals so that the normalized
(viewport-fraction) coordinates of the part_001 keep path are exact. -/
structure Photo where
  id : String
  dataUrl : String
  timestamp : Int
  caption : Option String
  isDeveloping : Bool
  isStaticNegative : Bool
  isEjecting : Bool
  customText : Option String
  x : Rat
  y : Rat
  rotation : Rat
  zIndex : Int
  backNote : Option String
deriving Repr, DecidableEq

/-- A row of the remote photos table (supabase), with the fields the app
reads and writes: id, room_id, created_at, data_url, caption, x, y,
rotation, z_index. -/
structure Row where
  id : String
  room_id : String
  created_at : Int
  data_url : String
  caption : Option String
  x : Rat
  y : Rat
  rotation : Rat
  z_index : Int
deriving Repr, DecidableEq

/-- The payload of a supabase insert request submitted by the keep
handler (handlePendingDragEnd) when the user is authenticated. -/
structure InsertReq where
  room_id : String
  data_url : String
  caption : Option String
  x : Rat
  y : Rat
  rotation : Rat
  z_index : Int
deriving Repr, DecidableEq

/-- The reactive state of the App component of src/App.tsx that the
polaroid lifecycle touches.  requests is a ghost log of the remote
insert requests submitted so far, and zLog is a ghost log of the stack
order values issued by focus and placement operations, in order of
assignment; neither exists in the source, they only record what the
operations do. -/
structure AppState where
  photos : List Photo
  pendingPhoto : Option Photo
  maxZIndex : Int
  shotsLeft : Int
  isReloading : Bool
  isCapturing : Bool
  isPoweredOn : Bool
  user : Option String
  room : String
  notice : Option String
  requests : List InsertReq
  zLog : List Int
deriving Repr, DecidableEq

/-- Initial state of the App component: no photos, empty pending slot,
maxZIndex 30, a film roll of 8 shots, room "global", powered off,
signed out. -/
def initApp : AppState :=
  { photos := []
    pendingPhoto := none
    maxZIndex := 30
    shotsLeft := 8
    isReloading := false
    isCapturing := false
    isPoweredOn := false
    user := none
    room := "global"
    notice := none
    requests := []
    zLog := [] }

/-- The freshly captured photo placed into the pending slot by the
ejection timer of takePhoto (src/App.tsx lines 336-348): a static
negative, ejecting, rotation 0, zIndex 1. -/
def mkPendingPhoto (pid dataUrl : String) (now : Int) (ct : Option String)
    (sx sy : Rat) : Photo :=
  { id := pid
    dataUrl := dataUrl
    timestamp := now
    caption := none
    isDeveloping := false
    isStaticNegative := true
    isEjecting := true
    customText := ct
    x := sx
    y := sy
    rotation := 0
    zIndex := 1
    backNote := none }

/-- Synchronous part of takePhoto (src/App.tsx lines 258-271): blocked
when the pending slot is occupied, the film is empty, a reload is in
progress, the camera is off, a capture is already in progress, or the
video frame is not ready; otherwise it marks capture in progress and
decrements the film counter.  The ejection itself is the later
spawnPending timer event. -/
def takePhoto (videoReady : Bool) (s : AppState) : AppState :=
  if s.pendingPhoto.isSome then s
  else if s.shotsLeft ≤ 0 ∨ s.isReloading = true ∨ s.isPoweredOn = false then s
  else if s.isCapturing = true then s
  else if videoReady = false then s
  else { s with isCapturing := true, shotsLeft := s.shotsLeft - 1 }

/-- bringToFront (src/App.tsx lines 247-256): issues maxZIndex + 1,
records the new maximum, reassigns the stack order of the card with the
given id, and, when the target is the pending photo, also clears its
ejecting flag. -/
def bringToFront (id : String) (s : AppState) : AppState :=
  let newZ := s.maxZIndex + 1
  let s1 := { s with
      maxZIndex := newZ
      photos := s.photos.map fun q => if q.id == id then { q with zIndex := newZ } else q
      zLog := s.zLog ++ [newZ] }
  match s.pendingPhoto with
  | some p => if p.id == id then { s1 with pendingPhoto := some { p with isEjecting := false } } else s1
  | none => s1

/-- handlePendingDragEnd of src/App.tsx (lines 381-428): guarded on the
pending slot holding the card with the dragged id.  When authenticated
it submits a remote insert carrying the raw drop coordinates; on
failure it surfaces a notice; in both cases it advances maxZIndex and
clears the pending slot.  When signed out it falls back to a direct
local insert of the developed card.  The fail flag is the outcome of
the awaited remote insert. -/
def handlePendingDragEnd (id : String) (x y rot : Rat) (fail : Bool)
    (s : AppState) : AppState :=
  match s.pendingPhoto with
  | none => s
  | some p =>
    if p.id == id then
      let z := s.maxZIndex + 1
      match s.user with
      | some _ =>
        let req : InsertReq :=
          { room_id := s.room
            data_url := p.dataUrl
            caption := p.caption
            x := x
            y := y
            rotation := rot
            z_index := z }
        { s with
            requests := s.requests ++ [req]
            notice := if fail then some "Failed to save photo to the cloud!" else s.notice
            maxZIndex := s.maxZIndex + 1
            pendingPhoto := none
            zLog := s.zLog ++ [z] }
      | none =>
        let finalPhoto : Photo :=
          { p with
              x := x
              y := y
              isEjecting := false
              isDeveloping := true
              isStaticNegative := false
              rotation := rot
              zIndex := z }
        { s with
            photos := s.photos ++ [finalPhoto]
            maxZIndex := s.maxZIndex + 1
            pendingPhoto := none
            zLog := s.zLog ++ [z] }
    else s

/-- The fixed 3 second ejection-end timer of takePhoto (src/App.tsx
lines 372-375): clears the ejecting flag of whatever is still in the
pending slot. -/
def ejectEndTimer (s : AppState) : AppState :=
  { s with pendingPhoto := s.pendingPhoto.map fun p => { p with isEjecting := false } }

/-- The generateCaption callback of takePhoto in src/App.tsx (lines
352-365): patches the caption onto the pending photo only if the slot
still holds the same capture identity.  The line that would also patch
the settled store is commented out in this variant of the source. -/
def captionArrival (id cap : String) (s : AppState) : AppState :=
  { s with pendingPhoto :=
      match s.pendingPhoto with
      | some curr => some (if curr.id == id then { curr with caption := some cap } else curr)
      | none => none }

/-- The Reset button of src/App.tsx (line 749): setPhotos([]). -/
def resetPhotos (s : AppState) : AppState :=
  { s with photos := [] }

/-- handleReload (src/App.tsx lines 430-439): idempotent-guarded start
of the timed reload. -/
def handleReload (s : AppState) : AppState :=
  if s.isReloading = true then s else { s with isReloading := true }

/-- The reload timer body: restore the full film roll and leave the
reloading state. -/
def reloadComplete (s : AppState) : AppState :=
  { s with shotsLeft := 8, isReloading := false }

/-- The card that a pointer-down on the given id hits: the pending slot
card first (LAYER 2 of src/App.tsx renders it with the flags of the
pending photo), otherwise the settled card with that id. -/
def renderedCard (s : AppState) (id : String) : Option Photo :=
  match s.pendingPhoto with
  | some p => if p.id == id then some p else s.photos.find? fun q => q.id == id
  | none => s.photos.find? fun q => q.id == id

/-- The guard of Polaroid.handleStart (src/unnamed/part_003 lines
81-86): a pointer gesture on a card is ignored while that card is
ejecting, so neither onFocus nor a drag can begin on it. -/
def renderedEjecting (s : AppState) (id : String) : Bool :=
  match renderedCard s id with
  | some c => c.isEjecting
  | none => false

/-- A pointer-down gesture on the card with the given id, as composed
by the app: Polaroid.handleStart first checks the ejecting guard and
only then calls onFocus, which is bringToFront. -/
def gestureFocus (id : String) (s : AppState) : AppState :=
  if renderedEjecting s id then s else bringToFront id s

/-- A full drag gesture on the card with the given id: handleStart
(guarded on ejecting) fires onFocus at pointer-down, and the drag-end
callback fires handlePendingDragEnd at pointer-up.  If the guard blocks
the start, no drag session exists and neither callback runs. -/
def gestureDrag (id : String) (x y rot : Rat) (fail : Bool) (s : AppState) : AppState :=
  if renderedEjecting s id then s
  else handlePendingDragEnd id x y rot fail (bringToFront id s)

/-- The Photo built by the postgres_changes INSERT handler of
src/App.tsx (lines 154-168) from a remote row: developing (so the
settle animation plays), not ejecting, placement taken from the row. -/
def mkEchoPhoto (r : Row) : Photo :=
  { id := r.id
    dataUrl := r.data_url
    timestamp := r.created_at
    caption := r.caption
    isDeveloping := true
    isStaticNegative := false
    isEjecting := false
    customText := match r.caption with | some _ => none | none => some "Shared Memory"
    x := r.x
    y := r.y
    rotation := r.rotation
    zIndex := r.z_index
    backNote := none }

/-- The store update of the INSERT handler (src/App.tsx lines 169-174):
add the echoed card only if no card with its id is already present. -/
def insertEchoPhotos (r : Row) (photos : List Photo) : List Photo :=
  if photos.any (fun e => e.id == r.id) then photos else photos ++ [mkEchoPhoto r]

/-- Discrete events of the single client, excluding the room effect
(fetch and subscription, modelled separately in RoomSync): the shutter
press, the ejection timer placing the captured photo in the slot, the
end-of-capture timer, the ejection-end timer, a focus, a keep
(drag-end), the asynchronous caption result, the reset button, the
reload button and its timer, and the power toggle. -/
inductive LEvent where
  | capture (videoReady : Bool)
  | spawnPend (pid dataUrl : String) (now : Int) (ct : Option String) (sx sy : Rat)
  | captureEnd
  | ejectEnd
  | focus (id : String)
  | keep (id : String) (x y rot : Rat) (fail : Bool)
  | captionArrive (id cap : String)
  | reset
  | reload
  | reloadDone
  | power
deriving Repr

/-- Apply one event to the App state, dispatching to the handler the
source binds to it. -/
def applyL (e : LEvent) (s : AppState) : AppState :=
  match e with
  | .capture v => takePhoto v s
  | .spawnPend pid du now ct sx sy => { s with pendingPhoto := some (mkPendingPhoto pid du now ct sx sy) }
  | .captureEnd => { s with isCapturing := false }
  | .ejectEnd => ejectEndTimer s
  | .focus id => bringToFront id s
  | .keep id x y rot fail => handlePendingDragEnd id x y rot fail s
  | .captionArrive id cap => captionArrival id cap s
  | .reset => resetPhotos s
  | .reload => handleReload s
  | .reloadDone => reloadComplete s
  | .power => { s with isPoweredOn := !s.isPoweredOn }

/-- Run a list of events from a state, in order. -/
def runL (es : List LEvent) (s : AppState) : AppState :=
  es.foldl (fun st e => applyL e st) s

namespace V1

/-- handlePendingDragEnd of the variant in src/unnamed/part_001 (lines
909-952): identical to the src/App.tsx handler except that the
authenticated insert carries the drop point divided by the viewport
size (xPercent = x / window.innerWidth, yPercent = y /
window.innerHeight).  vw and vh are the viewport dimensions. -/
def handlePendingDragEnd (vw vh : Rat) (id : String) (x y rot : Rat) (fail : Bool)
    (s : AppState) : AppState :=
  match s.pendingPhoto with
  | none => s
  | some p =>
    if p.id == id then
      let z := s.maxZIndex + 1
      match s.user with
      | some _ =>
        let req : InsertReq :=
          { room_id := s.room
            data_url := p.dataUrl
            caption := p.caption
            x := x / vw
            y := y / vh
            rotation := rot
            z_index := z }
        { s with
            requests := s.requests ++ [req]
            notice := if fail then some "Failed to save photo to the cloud!" else s.notice
            maxZIndex := s.maxZIndex + 1
            pendingPhoto := none
            zLog := s.zLog ++ [z] }
      | none =>
        let finalPhoto : Photo :=
          { p with
              x := x
              y := y
              isEjecting := false
              isDeveloping := true
              isStaticNegative := false
              rotation := rot
              zIndex := z }
        { s with
            photos := s.photos ++ [finalPhoto]
            maxZIndex := s.maxZIndex + 1
            pendingPhoto := none
            zLog := s.zLog ++ [z] }
    else s

end V1

namespace V0

/-- The generateCaption callback of the variant in src/unnamed/part_000
(lines 239-252): patches the pending slot if it still holds the same
capture, and also patches the settled store entry carrying the id of
the capture, so a caption that resolves after the keep reaches the settled
card. -/
def captionResolve (id cap : String) (s : AppState) : AppState :=
  let s1 := { s with pendingPhoto :=
      match s.pendingPhoto with
      | some curr => some (if curr.id == id then { curr with caption := some cap } else curr)
      | none => none }
  { s1 with photos := s1.photos.map fun p => if p.id == id then { p with caption := some cap } else p }

end V0

namespace RoomSync

/-- A fetch started by one run of the room effect, tagged with the
epoch (how many times the effect has run) and the room it queried.  The
tag is ghost provenance; the closure in the source captures the room
value the same way. -/
structure FetchReq where
  epoch : Nat
  room : String
deriving Repr, DecidableEq

/-- A realtime channel opened by one run of the room effect, subscribed
to the topic of its room (postgres_changes events filtered by
room_id=eq.(its room), broadcasts scoped to the topic). -/
structure Channel where
  epoch : Nat
  room : String
deriving Repr, DecidableEq

/-- One entry of the presence map (part_001 lines 614-622): the cursor
of a remote user, keyed by userId, with position, color and the
last-update timestamp.  The room field is ghost provenance: the room of
the channel that delivered the broadcast. -/
structure Cursor where
  userId : String
  x : Rat
  y : Rat
  color : String
  lastUpdate : Int
  room : String
deriving Repr, DecidableEq

/-- Ghost record of one application of asynchronous data to the card
store or the presence map: the room the data belongs to, and the room
that was current when the handler applied it. -/
structure AppRec where
  origin : String
  current : String
deriving Repr, DecidableEq

/-- The state the room effect governs: the current room, the signed-in
flag and the id of the local user, the effect epoch, the card store
(entries keep their originating row, so their room_id records which
room each card came from), the presence map, the fetches still in
flight, the channels not yet removed, and the ghost log of
applications. -/
structure SyncState where
  epoch : Nat
  room : String
  user : Bool
  selfId : String
  photos : List Row
  cursors : List Cursor
  fetches : List FetchReq
  chans : List Channel
  appLog : List AppRec
deriving Repr, DecidableEq

/-- Insert a row into a list sorted by ascending created_at. -/
def insertByCreated (r : Row) : List Row → List Row
  | [] => [r]
  | x :: xs => if r.created_at ≤ x.created_at then r :: x :: xs else x :: insertByCreated r xs

/-- Sort rows by ascending created_at (the order the fetch query asks
the database for). -/
def sortByCreated (l : List Row) : List Row :=
  l.foldr insertByCreated []

/-- The fetch query of fetchPhotos (src/App.tsx lines 118-123): rows of
the room, ordered by created_at ascending, limited to 50. -/
def queryRoom (table : List Row) (rm : String) : List Row :=
  (sortByCreated (table.filter fun r => r.room_id == rm)).take 50

/-- Overwrite-or-add a cursor entry keyed by userId, as the spread
update of the Record does in the source. -/
def upsertCursor (c : Cursor) (l : List Cursor) : List Cursor :=
  (l.filter fun e => e.userId != c.userId) ++ [c]

/-- Events the room effect interleaves with: a room-key change (the
effect reruns; its body depends on the signed-in flag), a sign-out, a
sign-in, the completion of the i-th in-flight fetch, the delivery of an
INSERT row on the i-th open channel, and the delivery of a CURSOR
broadcast on the i-th open channel.  A fetch may be replayed by the
scheduler; the safety statement is over this superset of the real
traces.  The FLASH broadcast and the periodic presence sweep touch
neither the card store nor which-room provenance and are not
modelled. -/
inductive SEvent where
  | roomChange (r : String)
  | signOut
  | signIn
  | fetchRet (i : Nat)
  | subEv (i : Nat) (row : Row)
  | cursorEv (i : Nat) (userId : String) (cx cy : Rat) (color : String) (now : Int)
deriving Repr

/-- One step of the src/unnamed/part_001 variant (lines 526-632).  On
every effect rerun the previous cleanup sets the ignore flag of the old
run (here: its epoch goes stale) and removes its channel; a signed-in
body clears the store and the presence map (lines 535-536) and starts a
fetch and a channel for the room, while a signed-out body only clears
the store (lines 527-530).  A completed fetch or a delivered INSERT row
is applied only when its run is still current (the ignore check);
INSERT delivery also respects the room filter and the duplicate-id
guard.  The CURSOR handler (lines 614-622) drops self-broadcasts and
upserts the cursor of the sender, with no ignore check: only the
channel removal at cleanup stops deliveries of an abandoned room. -/
def stepV1 (table : List Row) : SEvent → SyncState → SyncState
  | .roomChange r, s =>
    let ch := s.chans.filter fun c => c.epoch != s.epoch
    if s.user then
      { s with
          epoch := s.epoch + 1
          room := r
          photos := []
          cursors := []
          fetches := s.fetches ++ [{ epoch := s.epoch + 1, room := r }]
          chans := ch ++ [{ epoch := s.epoch + 1, room := r }] }
    else
      { s with epoch := s.epoch + 1, room := r, photos := [], chans := ch }
  | .signOut, s =>
    { s with
        epoch := s.epoch + 1
        user := false
        photos := []
        chans := s.chans.filter fun c => c.epoch != s.epoch }
  | .signIn, s =>
    { s with
        epoch := s.epoch + 1
        user := true
        photos := []
        cursors := []
        fetches := s.fetches ++ [{ epoch := s.epoch + 1, room := s.room }]
        chans := (s.chans.filter fun c => c.epoch != s.epoch) ++ [{ epoch := s.epoch + 1, room := s.room }] }
  | .fetchRet i, s =>
    match s.fetches[i]? with
    | none => s
    | some f =>
      if f.epoch == s.epoch then
        { s with
            photos := queryRoom table f.room
            appLog := s.appLog ++ [{ origin := f.room, current := s.room }] }
      else s
  | .subEv i row, s =>
    match s.chans[i]? with
    | none => s
    | some c =>
      if row.room_id == c.room then
        if c.epoch == s.epoch then
          if s.photos.any (fun e => e.id == row.id) then s
          else
            { s with
                photos := s.photos ++ [row]
                appLog := s.appLog ++ [{ origin := row.room_id, current := s.room }] }
        else s
      else s
  | .cursorEv i userId cx cy color now, s =>
    match s.chans[i]? with
    | none => s
    | some c =>
      if userId == s.selfId then s
      else
        { s with
            cursors := upsertCursor
              { userId := userId, x := cx, y := cy, color := color, lastUpdate := now, room := c.room }
              s.cursors
            appLog := s.appLog ++ [{ origin := c.room, current := s.room }] }

/-- One step of the src/App.tsx variant (lines 109-186).  The cleanup
removes the channel, but there is no ignore flag; the signed-in body
does not clear the store, and a completed fetch applies its result
unconditionally, whichever run started it.  This variant has no
presence layer at all, so CURSOR deliveries are no-ops. -/
def stepApp (table : List Row) : SEvent → SyncState → SyncState
  | .roomChange r, s =>
    let ch := s.chans.filter fun c => c.epoch != s.epoch
    if s.user then
      { s with
          epoch := s.epoch + 1
          room := r
          fetches := s.fetches ++ [{ epoch := s.epoch + 1, room := r }]
          chans := ch ++ [{ epoch := s.epoch + 1, room := r }] }
    else
      { s with epoch := s.epoch + 1, room := r, photos := [], chans := ch }
  | .signOut, s =>
    { s with
        epoch := s.epoch + 1
        user := false
        photos := []
        chans := s.chans.filter fun c => c.epoch != s.epoch }
  | .signIn, s =>
    { s with
        epoch := s.epoch + 1
        user := true
        fetches := s.fetches ++ [{ epoch := s.epoch + 1, room := s.room }]
        chans := (s.chans.filter fun c => c.epoch != s.epoch) ++ [{ epoch := s.epoch + 1, room := s.room }] }
  | .fetchRet i, s =>
    match s.fetches[i]? with
    | none => s
    | some f =>
      { s with
          photos := queryRoom table f.room
          appLog := s.appLog ++ [{ origin := f.room, current := s.room }] }
  | .subEv i row, s =>
    match s.chans[i]? with
    | none => s
    | some c =>
      if row.room_id == c.room then
        if s.photos.any (fun e => e.id == row.id) then s
        else
          { s with
              photos := s.photos ++ [row]
              appLog := s.appLog ++ [{ origin := row.room_id, current := s.room }] }
      else s
  | .cursorEv _ _ _ _ _ _, s => s

/-- Run the part_001 variant over a list of events. -/
def runV1 (table : List Row) (es : List SEvent) (s : SyncState) : SyncState :=
  es.foldl (fun st e => stepV1 table e st) s

/-- Run the src/App.tsx variant over a list of events. -/
def runApp (table : List Row) (es : List SEvent) (s : SyncState) : SyncState :=
  es.foldl (fun st e => stepApp table e st) s

/-- State after the first signed-in run of the room effect in room r:
empty store and presence map, one fetch and one channel in flight for
r. -/
def initSync (r selfId : String) : SyncState :=
  { epoch := 0
    room := r
    user := true
    selfId := selfId
    photos := []
    cursors := []
    fetches := [{ epoch := 0, room := r }]
    chans := [{ epoch := 0, room := r }]
    appLog := [] }

/-- Room-isolation invariant: every stored card came from the current
room; any fetch of the current epoch targets the current room (stale
fetches have strictly older epochs); every channel still open belongs
to the current run and room (cleanup removes the channel of every
abandoned run); and every application of asynchronous data so far used
data of the room that was current at that moment. -/
def RoomInv (s : SyncState) : Prop :=
  (∀ r ∈ s.photos, r.room_id = s.room) ∧
  (∀ f ∈ s.fetches, f.epoch ≤ s.epoch ∧ (f.epoch = s.epoch → f.room = s.room)) ∧
  (∀ c ∈ s.chans, c.epoch = s.epoch ∧ c.room = s.room) ∧
  (∀ a ∈ s.appLog, a.origin = a.current)

end RoomSync

/-- Stack-order invariant: the ghost log of issued stack orders is
strictly increasing in order of assignment, and the recorded maximum
bounds every issued value. -/
def Inv3 (s : AppState) : Prop :=
  List.Pairwise (· < ·) s.zLog ∧ ∀ z ∈ s.zLog, z ≤ s.maxZIndex

/-- A state whose pending slot is occupied by a freshly ejected
capture (still in the ejecting phase). -/
def occupiedState : AppState :=
  { initApp with pendingPhoto := some (mkPendingPhoto "p0" "d" 0 none 10 20) }

/-- A concrete pending capture used by the keep-path examples. -/
def pendDemo : Photo :=
  mkPendingPhoto "p1" "img" 0 none 10 20

/-- An authenticated state in room "demo" whose pending slot holds
pendDemo. -/
def authState : AppState :=
  { initApp with pendingPhoto := some pendDemo, user := some "u", room := "demo" }

/-- The pendDemo card as it sits in the settled store after a local
keep. -/
def pendSettled : Photo :=
  { pendDemo with isEjecting := false, isDeveloping := true, isStaticNegative := false }

/-- A signed-out state whose settled store already holds the kept card
pendSettled (caption still unresolved). -/
def keptState : AppState :=
  { initApp with photos := [pendSettled] }

/-- Capture, ejection end, local keep, then the late caption result:
the concrete trace behind the late-caption counterexample. -/
def lateCaptionTrace : List LEvent :=
  [LEvent.spawnPend "p1" "d" 0 none 10 20, LEvent.ejectEnd,
   LEvent.keep "p1" 50 60 3 false, LEvent.captionArrive "p1" "hi"]

/-- A remote row of room "a". -/
def rowA : Row :=
  { id := "ra", room_id := "a", created_at := 0, data_url := "da",
    caption := none, x := 0, y := 0, rotation := 0, z_index := 1 }

/-- A remote row of room "b". -/
def rowB : Row :=
  { id := "rb", room_id := "b", created_at := 0, data_url := "db",
    caption := none, x := 0, y := 0, rotation := 0, z_index := 1 }

/-- A remote table holding one card in each of room "a" and room "b". -/
def staleTable : List Row :=
  [rowA, rowB]

/-- Switch from room "a" to room "b" while signed in, then the new
fetch returns, then the still-in-flight fetch of the old room
returns. -/
def staleEvents : List RoomSync.SEvent :=
  [RoomSync.SEvent.roomChange "b", RoomSync.SEvent.fetchRet 1, RoomSync.SEvent.fetchRet 0]

/-- The i-th row of a 51-row room: created at time i. -/
def mkRow51 (i : Nat) : Row :=
  { id := "r" ++ toString i, room_id := "g", created_at := Int.ofNat i,
    data_url := "d", caption := none, x := 0, y := 0, rotation := 0, z_index := 1 }

/-- A room with 51 remote cards, created at times 0 through 50; the
newest is r50. -/
def table51 : List Row :=
  (List.range 51).map mkRow51

namespace RoomSync

lemma mem_of_idx {α : Type} {l : List α} {n : Nat} {a : α} (h : l[n]? = some a) : a ∈ l := by
  obtain ⟨hlt, he⟩ := List.getElem?_eq_some.mp h
  exact he ▸ List.getElem_mem hlt

lemma mem_insertByCreated {a r : Row} : ∀ {l : List Row}, a ∈ insertByCreated r l → a = r ∨ a ∈ l
  | [], h => by simpa [insertByCreated] using h
  | x :: xs, h => by
    unfold insertByCreated at h
    split at h
    · rcases List.mem_cons.mp h with h1 | h1
      · exact Or.inl h1
      · exact Or.inr h1
    · rcases List.mem_cons.mp h with h1 | h1
      · exact Or.inr (h1 ▸ List.mem_cons_self x xs)
      · rcases mem_insertByCreated h1 with h2 | h2
        · exact Or.inl h2
        · exact Or.inr (List.mem_cons_of_mem x h2)

lemma mem_sortByCreated {a : Row} : ∀ {l : List Row}, a ∈ sortByCreated l → a ∈ l
  | [], h => by simp [sortByCreated] at h
  | x :: xs, h => by
    have h2 : a ∈ insertByCreated x (sortByCreated xs) := by simpa [sortByCreated] using h
    rcases mem_insertByCreated h2 with h3 | h3
    · exact h3 ▸ List.mem_cons_self x xs
    · exact List.mem_cons_of_mem x (mem_sortByCreated h3)

/-- Every row the fetch query returns belongs to the queried room. -/
lemma queryRoom_room {table : List Row} {rm : String} {a : Row}
    (h : a ∈ queryRoom table rm) : a.room_id = rm := by
  have h1 : a ∈ sortByCreated (table.filter fun r => r.room_id == rm) :=
    List.mem_of_mem_take h
  exact beq_iff_eq.mp (List.mem_filter.mp (mem_sortByCreated h1)).2

/-- A channel surviving the cleanup filter would contradict the channel
invariant: every open channel has the current epoch, and the filter
keeps only stale ones. -/
lemma no_stale_chan {s : SyncState}
    (hc : ∀ c ∈ s.chans, c.epoch = s.epoch ∧ c.room = s.room)
    {c : Channel} (h : c ∈ s.chans.filter fun c2 => c2.epoch != s.epoch) : False := by
  have h1 := List.mem_filter.mp h
  have h2 := (hc c h1.1).1
  rw [h2] at h1
  simp at h1

/-- One part_001 step preserves the room-isolation invariant. -/
lemma roomInv_stepV1 (table : List Row) (e : SEvent) {s : SyncState}
    (h : RoomInv s) : RoomInv (stepV1 table e s) := by
  obtain ⟨hp, hf, hc, ha⟩ := h
  cases e with
  | roomChange r =>
    by_cases hu : s.user = true
    · have hstep : stepV1 table (SEvent.roomChange r) s =
        { s with
            epoch := s.epoch + 1
            room := r
            photos := []
            cursors := []
            fetches := s.fetches ++ [{ epoch := s.epoch + 1, room := r }]
            chans := (s.chans.filter fun c => c.epoch != s.epoch) ++
              [{ epoch := s.epoch + 1, room := r }] } := by
        simp [stepV1, hu]
      rw [hstep]
      refine ⟨?_, ?_, ?_, ?_⟩
      · intro row hrow
        simp at hrow
      · intro f hfm
        rcases List.mem_append.mp hfm with hfm | hfm
        · have h1 := (hf f hfm).1
          constructor
          · show f.epoch ≤ s.epoch + 1
            omega
          · intro he
            have he2 : f.epoch = s.epoch + 1 := he
            exact absurd he2 (by omega)
        · have h2 : f = { epoch := s.epoch + 1, room := r } := by simpa using hfm
          subst h2
          exact ⟨Nat.le_refl _, fun _ => rfl⟩
      · intro c hcm
        rcases List.mem_append.mp hcm with hcm | hcm
        · exact (no_stale_chan hc hcm).elim
        · have h2 : c = { epoch := s.epoch + 1, room := r } := by simpa using hcm
          subst h2
          exact ⟨rfl, rfl⟩
      · exact ha
    · have hu2 : s.user = false := by simpa using hu
      have hstep : stepV1 table (SEvent.roomChange r) s =
        { s with
            epoch := s.epoch + 1
            room := r
            photos := []
            chans := s.chans.filter fun c => c.epoch != s.epoch } := by
        simp [stepV1, hu2]
      rw [hstep]
      refine ⟨?_, ?_, ?_, ?_⟩
      · intro row hrow
        simp at hrow
      · intro f hfm
        have h1 := (hf f hfm).1
        constructor
        · show f.epoch ≤ s.epoch + 1
          omega
        · intro he
          have he2 : f.epoch = s.epoch + 1 := he
          exact absurd he2 (by omega)
      · intro c hcm
        exact (no_stale_chan hc hcm).elim
      · exact ha
  | signOut =>
    refine ⟨?_, ?_, ?_, ?_⟩
    · intro row hrow
      simp [stepV1] at hrow
    · intro f hfm
      have hfm2 : f ∈ s.fetches := hfm
      have h1 := (hf f hfm2).1
      constructor
      · show f.epoch ≤ s.epoch + 1
        omega
      · intro he
        have he2 : f.epoch = s.epoch + 1 := he
        exact absurd he2 (by omega)
    · intro c hcm
      exact (no_stale_chan hc hcm).elim
    · exact ha
  | signIn =>
    refine ⟨?_, ?_, ?_, ?_⟩
    · intro row hrow
      simp [stepV1] at hrow
    · intro f hfm
      have hfm2 : f ∈ s.fetches ++ [{ epoch := s.epoch + 1, room := s.room }] := hfm
      rcases List.mem_append.mp hfm2 with hfm3 | hfm3
      · have h1 := (hf f hfm3).1
        constructor
        · show f.epoch ≤ s.epoch + 1
          omega
        · intro he
          have he2 : f.epoch = s.epoch + 1 := he
          exact absurd he2 (by omega)
      · have h2 : f = { epoch := s.epoch + 1, room := s.room } := by simpa using hfm3
        subst h2
        exact ⟨Nat.le_refl _, fun _ => rfl⟩
    · intro c hcm
      have hcm2 : c ∈ (s.chans.filter fun c2 => c2.epoch != s.epoch) ++
          [{ epoch := s.epoch + 1, room := s.room }] := hcm
      rcases List.mem_append.mp hcm2 with hcm3 | hcm3
      · exact (no_stale_chan hc hcm3).elim
      · have h2 : c = { epoch := s.epoch + 1, room := s.room } := by simpa using hcm3
        subst h2
        exact ⟨rfl, rfl⟩
    · exact ha
  | fetchRet i =>
    cases hfi : s.fetches[i]? with
    | none =>
      simp only [stepV1, hfi]
      exact ⟨hp, hf, hc, ha⟩
    | some f =>
      by_cases he : (f.epoch == s.epoch) = true
      · have hroom : f.room = s.room := (hf f (mem_of_idx hfi)).2 (beq_iff_eq.mp he)
        simp only [stepV1, hfi, he, if_true]
        refine ⟨?_, hf, hc, ?_⟩
        · intro row hrow
          exact hroom ▸ queryRoom_room hrow
        · intro a ham
          rcases List.mem_append.mp ham with ham | ham
          · exact ha a ham
          · have h3 : a = { origin := f.room, current := s.room } := by simpa using ham
            subst h3
            exact hroom
      · simp only [stepV1, hfi, he, Bool.false_eq_true, if_false]
        exact ⟨hp, hf, hc, ha⟩
  | subEv i row =>
    cases hci : s.chans[i]? with
    | none =>
      simp only [stepV1, hci]
      exact ⟨hp, hf, hc, ha⟩
    | some c =>
      by_cases hr : (row.room_id == c.room) = true
      · by_cases he : (c.epoch == s.epoch) = true
        · by_cases hd : (s.photos.any fun e2 => e2.id == row.id) = true
          · simp only [stepV1, hci, hr, he, hd, if_true]
            exact ⟨hp, hf, hc, ha⟩
          · have hcr : c.room = s.room := (hc c (mem_of_idx hci)).2
            simp only [stepV1, hci, hr, he, hd, if_true, Bool.false_eq_true, if_false]
            refine ⟨?_, hf, hc, ?_⟩
            · intro r2 hr2
              rcases List.mem_append.mp hr2 with h2 | h2
              · exact hp r2 h2
              · have h3 : r2 = row := by simpa using h2
                subst h3
                rw [beq_iff_eq.mp hr, hcr]
            · intro a ham
              rcases List.mem_append.mp ham with ham | ham
              · exact ha a ham
              · have h3 : a = { origin := row.room_id, current := s.room } := by simpa using ham
                subst h3
                show row.room_id = s.room
                rw [beq_iff_eq.mp hr, hcr]
        · simp only [stepV1, hci, hr, he, if_true, Bool.false_eq_true, if_false]
          exact ⟨hp, hf, hc, ha⟩
      · simp only [stepV1, hci, hr, Bool.false_eq_true, if_false]
        exact ⟨hp, hf, hc, ha⟩
  | cursorEv i userId cx cy color now =>
    cases hci : s.chans[i]? with
    | none =>
      simp only [stepV1, hci]
      exact ⟨hp, hf, hc, ha⟩
    | some c =>
      by_cases hs : (userId == s.selfId) = true
      · simp only [stepV1, hci, hs, if_true]
        exact ⟨hp, hf, hc, ha⟩
      · have hcr : c.room = s.room := (hc c (mem_of_idx hci)).2
        simp only [stepV1, hci, hs, Bool.false_eq_true, if_false]
        refine ⟨hp, hf, hc, ?_⟩
        intro a ham
        rcases List.mem_append.mp ham with ham | ham
        · exact ha a ham
        · have h3 : a = { origin := c.room, current := s.room } := by simpa using ham
          subst h3
          exact hcr

/-- The invariant holds along every part_001 trace. -/
lemma roomInv_runV1 (table : List Row) (es : List SEvent) :
    ∀ s : SyncState, RoomInv s → RoomInv (runV1 table es s) := by
  induction es with
  | nil => intro s h; exact h
  | cons e es ih => intro s h; exact ih _ (roomInv_stepV1 table e h)

end RoomSync

lemma inv3_extend {l : List Int} {m : Int} (h1 : List.Pairwise (· < ·) l)
    (h2 : ∀ z ∈ l, z ≤ m) :
    List.Pairwise (· < ·) (l ++ [m + 1]) ∧ ∀ z ∈ l ++ [m + 1], z ≤ m + 1 := by
  constructor
  · refine List.pairwise_append.mpr ⟨h1, List.pairwise_singleton _ _, ?_⟩
    intro x hx y hy
    have hy1 : y = m + 1 := by simpa using hy
    subst hy1
    have := h2 x hx
    omega
  · intro z hz
    rcases List.mem_append.mp hz with hz | hz
    · have := h2 z hz
      omega
    · have hz1 : z = m + 1 := by simpa using hz
      omega

lemma inv3_bringToFront (id : String) {s : AppState} (h : Inv3 s) :
    Inv3 (bringToFront id s) := by
  have hx := inv3_extend h.1 h.2
  unfold bringToFront Inv3
  cases s.pendingPhoto with
  | none => exact hx
  | some p =>
    by_cases hid : (p.id == id) = true
    · simp only [hid, if_true]
      exact hx
    · simp only [hid, Bool.false_eq_true, if_false]
      exact hx

lemma inv3_handlePendingDragEnd (id : String) (x y rot : Rat) (fail : Bool)
    {s : AppState} (h : Inv3 s) : Inv3 (handlePendingDragEnd id x y rot fail s) := by
  have hx := inv3_extend h.1 h.2
  unfold handlePendingDragEnd Inv3
  cases s.pendingPhoto with
  | none => exact h
  | some p =>
    by_cases hid : (p.id == id) = true
    · simp only [hid, if_true]
      cases s.user with
      | none => exact hx
      | some u => exact hx
    · simp only [hid, Bool.false_eq_true, if_false]
      exact h

lemma inv3_takePhoto (v : Bool) {s : AppState} (h : Inv3 s) :
    Inv3 (takePhoto v s) := by
  unfold takePhoto
  split
  · exact h
  · split
    · exact h
    · split
      · exact h
      · split
        · exact h
        · exact h

lemma inv3_applyL (e : LEvent) {s : AppState} (h : Inv3 s) : Inv3 (applyL e s) := by
  cases e with
  | capture v => exact inv3_takePhoto v h
  | spawnPend pid du now ct sx sy => exact h
  | captureEnd => exact h
  | ejectEnd => exact h
  | focus id => exact inv3_bringToFront id h
  | keep id x y rot fail => exact inv3_handlePendingDragEnd id x y rot fail h
  | captionArrive id cap => exact h
  | reset => exact h
  | reload =>
    show Inv3 (handleReload s)
    unfold handleReload
    split
    · exact h
    · exact h
  | reloadDone => exact h
  | power => exact h

lemma inv3_runL (es : List LEvent) : ∀ s : AppState, Inv3 s → Inv3 (runL es s) := by
  induction es with
  | nil => intro s h; exact h
  | cons e es ih => intro s h; exact ih _ (inv3_applyL e h)

/-- C1: a capture request (takePhoto) made while the pending slot is
occupied is a complete no-op: the state is returned unchanged, so the
existing pending capture is not altered and no second pending capture
is created; the slot being a single Option field, at most one capture
is pending at any time. -/
theorem captureBlockedWhenSlotOccupied (videoReady : Bool) (s : AppState)
    (h : s.pendingPhoto.isSome = true) : takePhoto videoReady s = s := by
  simp [takePhoto, h]

theorem captureBlockedWhenSlotOccupied_witness :
    occupiedState.pendingPhoto.isSome = true ∧
    takePhoto true occupiedState = occupiedState :=
  ⟨rfl, captureBlockedWhenSlotOccupied true occupiedState rfl⟩

/-- C2 counterexample: under the src/App.tsx room effect (no ignore
flag), switching from room "a" to room "b" while the room-"a" fetch is
still in flight lets the stale fetch result land after the switch: the
final state is in room "b" but its store holds exactly the room-"a"
card, and the ghost application log records an application whose origin
room differs from the room current at that moment. -/
theorem staleFetchAppliedAcrossSwitch :
    (RoomSync.runApp staleTable staleEvents (RoomSync.initSync "a" "me")).room = "b" ∧
    (RoomSync.runApp staleTable staleEvents (RoomSync.initSync "a" "me")).photos.map Row.room_id
      = ["a"] ∧
    ((RoomSync.runApp staleTable staleEvents (RoomSync.initSync "a" "me")).appLog.all
      fun a => a.origin == a.current) = false := by
  decide

/-- C2 (amended): in the src/unnamed/part_001 variant, whose effect
cleanup sets an ignore flag checked before applying fetch results and
INSERT deliveries and whose cleanup removes the channel carrying the
CURSOR broadcasts, every interleaving of room changes, sign-outs and
sign-ins with fetch completions, INSERT deliveries and CURSOR
deliveries satisfies both halves of the isolation property: every
application of asynchronous data to the card store or to the presence
map uses data belonging to the room current at that moment (the ghost
application log never records a stale application), and the card store
holds only cards of the current room. -/
theorem roomSwitchIsolationV1 (table : List Row) (es : List RoomSync.SEvent) (r0 me : String) :
    (∀ row ∈ (RoomSync.runV1 table es (RoomSync.initSync r0 me)).photos,
        row.room_id = (RoomSync.runV1 table es (RoomSync.initSync r0 me)).room) ∧
    (∀ a ∈ (RoomSync.runV1 table es (RoomSync.initSync r0 me)).appLog,
        a.origin = a.current) := by
  have h0 : RoomSync.RoomInv (RoomSync.initSync r0 me) := by
    refine ⟨?_, ?_, ?_, ?_⟩
    · intro row hrow
      simp [RoomSync.initSync] at hrow
    · intro f hfm
      simp only [RoomSync.initSync, List.mem_singleton] at hfm
      subst hfm
      exact ⟨Nat.le_refl 0, fun _ => rfl⟩
    · intro c hcm
      simp only [RoomSync.initSync, List.mem_singleton] at hcm
      subst hcm
      exact ⟨rfl, rfl⟩
    · intro a ham
      simp [RoomSync.initSync] at ham
  have h := RoomSync.roomInv_runV1 table es _ h0
  exact ⟨h.1, h.2.2.2⟩

theorem roomSwitchIsolationV1_witness :
    rowA.room_id =
      (RoomSync.runV1 [rowA] [RoomSync.SEvent.fetchRet 0] (RoomSync.initSync "a" "me")).room :=
  (roomSwitchIsolationV1 [rowA] [RoomSync.SEvent.fetchRet 0] "a" "me").1 rowA (by decide)

/-- C3: along every sequence of focus (bringToFront) and placement
(keep) operations, interleaved with captures, timers, caption results,
resets and reloads, the stack-order values issued are strictly
increasing in order of assignment, hence pairwise distinct: no two
assignments ever produce the same stack order. -/
theorem stackOrderMonotone (es : List LEvent) :
    List.Pairwise (· < ·) (runL es initApp).zLog ∧ (runL es initApp).zLog.Nodup := by
  have h0 : Inv3 initApp := by
    constructor
    · exact List.Pairwise.nil
    · intro z hz
      simp [initApp] at hz
  have h := inv3_runL es initApp h0
  exact ⟨h.1, List.Pairwise.imp (fun hab => ne_of_lt hab) h.1⟩

/-- C4: at the failing input (a room with 51 cards, created at times 0
through 50), the fetch query of fetchPhotos, which orders by created_at
ascending and limits to 50 rows, returns 50 rows that include the
oldest card r0 but omit the most recently created card r50 — contrary
to the claim (and to the source comment "Limit to last 50") that the 50
most recently created cards are fetched. -/
theorem fetchReturnsOldestNotNewest :
    (RoomSync.queryRoom table51 "g").length = 50 ∧
    ((RoomSync.queryRoom table51 "g").map Row.id).contains "r50" = false ∧
    (table51.map Row.id).contains "r50" = true ∧
    ((RoomSync.queryRoom table51 "g").map Row.id).contains "r0" = true := by
  decide

/-- C5 counterexample: the authenticated keep path of src/App.tsx
submits the raw drop point; dropping pendDemo at (120, 340) produces an
insert request whose x coordinate is 120, which is not within the
normalized 0-1 range. -/
theorem keepSubmitsRawPixels :
    (handlePendingDragEnd "p1" 120 340 2 false authState).requests.map InsertReq.x = [(120 : Rat)] ∧
    ¬ ((120 : Rat) ≤ 1) := by
  decide

/-- C5 (amended): in the src/unnamed/part_001 variant the authenticated
keep submits viewport-fraction coordinates (x divided by the viewport
width, y by the viewport height, hence within 0-1 whenever the drop
point lies inside the viewport) together with rotation, stack order and
caption, clears the pending slot, and leaves the local card store
untouched. -/
theorem keepAuthSubmitsNormalizedV1 (vw vh x y rot : Rat) (s : AppState) (p : Photo)
    (id : String) (fail : Bool)
    (h1 : s.pendingPhoto = some p) (h2 : p.id = id) (h3 : s.user.isSome = true)
    (hvw : 0 < vw) (hvh : 0 < vh)
    (hx0 : 0 ≤ x) (hxw : x ≤ vw) (hy0 : 0 ≤ y) (hyh : y ≤ vh) :
    (V1.handlePendingDragEnd vw vh id x y rot fail s).requests =
      s.requests ++ [⟨s.room, p.dataUrl, p.caption, x / vw, y / vh, rot, s.maxZIndex + 1⟩] ∧
    (V1.handlePendingDragEnd vw vh id x y rot fail s).photos = s.photos ∧
    (V1.handlePendingDragEnd vw vh id x y rot fail s).pendingPhoto = none ∧
    0 ≤ x / vw ∧ x / vw ≤ 1 ∧ 0 ≤ y / vh ∧ y / vh ≤ 1 := by
  obtain ⟨u, hu⟩ := Option.isSome_iff_exists.mp h3
  subst h2
  refine ⟨?_, ?_, ?_, ?_, ?_, ?_, ?_⟩
  · simp [V1.handlePendingDragEnd, h1, hu]
  · simp [V1.handlePendingDragEnd, h1, hu]
  · simp [V1.handlePendingDragEnd, h1, hu]
  · exact div_nonneg hx0 hvw.le
  · exact (div_le_one hvw).mpr hxw
  · exact div_nonneg hy0 hvh.le
  · exact (div_le_one hvh).mpr hyh

theorem keepAuthSubmitsNormalizedV1_witness :
    (V1.handlePendingDragEnd 1000 500 "p1" 120 340 2 false authState).requests =
      authState.requests ++
        [⟨authState.room, pendDemo.dataUrl, pendDemo.caption, 120 / 1000, 340 / 500, 2,
          authState.maxZIndex + 1⟩] ∧
    (V1.handlePendingDragEnd 1000 500 "p1" 120 340 2 false authState).photos = authState.photos ∧
    (V1.handlePendingDragEnd 1000 500 "p1" 120 340 2 false authState).pendingPhoto = none ∧
    0 ≤ (120 : Rat) / 1000 ∧ (120 : Rat) / 1000 ≤ 1 ∧
    0 ≤ (340 : Rat) / 500 ∧ (340 : Rat) / 500 ≤ 1 :=
  keepAuthSubmitsNormalizedV1 1000 500 120 340 2 authState pendDemo "p1" false rfl rfl rfl
    (by norm_num) (by norm_num) (by norm_num) (by norm_num) (by norm_num) (by norm_num)

/-- C6: when the remote insert of the authenticated keep fails, the
resulting state differs from the successful run only in the
user-visible notice: the pending slot is cleared in both runs, and the
store, stack-order counter, submitted requests, film counter, reload
flag, capture flags, user, room and issued-order log are identical;
nothing is rolled back. -/
theorem keepFailureFrame (id : String) (x y rot : Rat) (s : AppState) (p : Photo)
    (h1 : s.pendingPhoto = some p) (h2 : p.id = id) (h3 : s.user.isSome = true) :
    (handlePendingDragEnd id x y rot true s).pendingPhoto = none ∧
    (handlePendingDragEnd id x y rot false s).pendingPhoto = none ∧
    (handlePendingDragEnd id x y rot true s).photos =
      (handlePendingDragEnd id x y rot false s).photos ∧
    (handlePendingDragEnd id x y rot true s).maxZIndex =
      (handlePendingDragEnd id x y rot false s).maxZIndex ∧
    (handlePendingDragEnd id x y rot true s).requests =
      (handlePendingDragEnd id x y rot false s).requests ∧
    (handlePendingDragEnd id x y rot true s).shotsLeft =
      (handlePendingDragEnd id x y rot false s).shotsLeft ∧
    (handlePendingDragEnd id x y rot true s).isReloading =
      (handlePendingDragEnd id x y rot false s).isReloading ∧
    (handlePendingDragEnd id x y rot true s).isCapturing =
      (handlePendingDragEnd id x y rot false s).isCapturing ∧
    (handlePendingDragEnd id x y rot true s).isPoweredOn =
      (handlePendingDragEnd id x y rot false s).isPoweredOn ∧
    (handlePendingDragEnd id x y rot true s).user =
      (handlePendingDragEnd id x y rot false s).user ∧
    (handlePendingDragEnd id x y rot true s).room =
      (handlePendingDragEnd id x y rot false s).room ∧
    (handlePendingDragEnd id x y rot true s).zLog =
      (handlePendingDragEnd id x y rot false s).zLog ∧
    (handlePendingDragEnd id x y rot true s).notice = some "Failed to save photo to the cloud!" := by
  obtain ⟨u, hu⟩ := Option.isSome_iff_exists.mp h3
  subst h2
  simp [handlePendingDragEnd, h1, hu]

theorem keepFailureFrame_witness :
    (handlePendingDragEnd "p1" 120 340 2 true authState).pendingPhoto = none ∧
    (handlePendingDragEnd "p1" 120 340 2 true authState).notice =
      some "Failed to save photo to the cloud!" :=
  ⟨(keepFailureFrame "p1" 120 340 2 authState pendDemo rfl rfl rfl).1,
   (keepFailureFrame "p1" 120 340 2 authState pendDemo rfl rfl rfl).2.2.2.2.2.2.2.2.2.2.2.2⟩

/-- C7: the remote-echo INSERT handler is idempotent on id — inserting
a row whose id is already present in the store returns the store
unchanged, so no duplicate entry appears and the placement of the
existing entry is untouched. -/
theorem echoInsertIdempotent (r : Row) (photos : List Photo) (p : Photo)
    (hp : p ∈ photos) (hid : p.id = r.id) :
    insertEchoPhotos r photos = photos := by
  have h : photos.any (fun e => e.id == r.id) = true :=
    List.any_eq_true.mpr ⟨p, hp, by simp [hid]⟩
  simp [insertEchoPhotos, h]

theorem echoInsertIdempotent_witness :
    insertEchoPhotos rowA [mkEchoPhoto rowA] = [mkEchoPhoto rowA] :=
  echoInsertIdempotent rowA [mkEchoPhoto rowA] (mkEchoPhoto rowA) (by decide) rfl

/-- C8 counterexample: under src/App.tsx, after a capture is kept into
the local settled store, a caption that resolves late is dropped — the
concrete trace captures p1, keeps it locally, then receives the caption
"hi", and the settled entry p1 still has no caption (the retargeting
line is commented out in this variant). -/
theorem lateCaptionDroppedOnKept :
    (runL lateCaptionTrace initApp).photos.map Photo.id = ["p1"] ∧
    (runL lateCaptionTrace initApp).photos.map Photo.caption = [none] := by
  decide

/-- C8 (amended): in the src/unnamed/part_000 variant, whose caption
callback also patches the settled store by identity, any settled entry
carrying the id of the capture holds the resolved caption after the callback
runs; the update is targeted by id, never by a stale pending
reference. -/
theorem lateCaptionRetargetedV0 (id cap : String) (s : AppState) (q : Photo)
    (hq : q ∈ (V0.captionResolve id cap s).photos) (hid : q.id = id) :
    q.caption = some cap := by
  simp only [V0.captionResolve, List.mem_map] at hq
  obtain ⟨p, hp, hfq⟩ := hq
  by_cases hb : (p.id == id) = true
  · rw [if_pos hb] at hfq
    rw [← hfq]
  · rw [if_neg hb] at hfq
    subst hfq
    exact absurd (beq_iff_eq.mpr hid) hb

theorem lateCaptionRetargetedV0_witness :
    ({ pendSettled with caption := some "hi" } : Photo).caption = some "hi" :=
  lateCaptionRetargetedV0 "p1" "hi" keptState { pendSettled with caption := some "hi" }
    (by decide) rfl

/-- C9: while the pending capture is ejecting, no user gesture changes
it — a pointer-down (focus) or a full drag on any card leaves the
pending capture exactly as it is, because Polaroid.handleStart ignores
gestures on an ejecting card and gestures on other cards cannot touch
the slot; only the fixed ejection-end timer clears the ejecting
flag. -/
theorem ejectExitOnlyByTimer (s : AppState) (p : Photo)
    (h1 : s.pendingPhoto = some p) (h2 : p.isEjecting = true) :
    (∀ id, (gestureFocus id s).pendingPhoto = some p) ∧
    (∀ id x y rot fail, (gestureDrag id x y rot fail s).pendingPhoto = some p) ∧
    (ejectEndTimer s).pendingPhoto = some { p with isEjecting := false } := by
  refine ⟨?_, ?_, ?_⟩
  · intro id
    by_cases hid : (p.id == id) = true
    · have hre : renderedEjecting s id = true := by
        simp [renderedEjecting, renderedCard, h1, hid, h2]
      simp [gestureFocus, hre]
      exact h1
    · by_cases hblk : renderedEjecting s id = true
      · simp [gestureFocus, hblk]
        exact h1
      · simp only [gestureFocus, hblk, Bool.false_eq_true, if_false]
        simp [bringToFront, h1, hid]
  · intro id x y rot fail
    by_cases hid : (p.id == id) = true
    · have hre : renderedEjecting s id = true := by
        simp [renderedEjecting, renderedCard, h1, hid, h2]
      simp [gestureDrag, hre]
      exact h1
    · by_cases hblk : renderedEjecting s id = true
      · simp [gestureDrag, hblk]
        exact h1
      · simp only [gestureDrag, hblk, Bool.false_eq_true, if_false]
        simp [handlePendingDragEnd, bringToFront, h1, hid]
  · simp [ejectEndTimer, h1]

theorem ejectExitOnlyByTimer_witness :
    (gestureFocus "p0" occupiedState).pendingPhoto =
      some (mkPendingPhoto "p0" "d" 0 none 10 20) ∧
    (ejectEndTimer occupiedState).pendingPhoto =
      some { mkPendingPhoto "p0" "d" 0 none 10 20 with isEjecting := false } :=
  ⟨(ejectExitOnlyByTimer occupiedState (mkPendingPhoto "p0" "d" 0 none 10 20) rfl rfl).1 "p0",
   (ejectExitOnlyByTimer occupiedState (mkPendingPhoto "p0" "d" 0 none 10 20) rfl rfl).2.2⟩

/-- C10: the Reset action empties the card store and changes nothing
else — the pending slot, the stack-order counter, the film counter, the
reloading flag, the room key and the log of submitted remote requests
are all identical before and after, so no remote request is made. -/
theorem resetClearsOnlyPhotos (s : AppState) :
    (resetPhotos s).photos = [] ∧
    (resetPhotos s).pendingPhoto = s.pendingPhoto ∧
    (resetPhotos s).maxZIndex = s.maxZIndex ∧
    (resetPhotos s).shotsLeft = s.shotsLeft ∧
    (resetPhotos s).isReloading = s.isReloading ∧
    (resetPhotos s).room = s.room ∧
    (resetPhotos s).user = s.user ∧
    (resetPhotos s).requests = s.requests :=
  ⟨rfl, rfl, rfl, rfl, rfl, rfl, rfl, rfl⟩

end RetroCam
